import Mathlib

/-!
Shallow embedding of the window-handle façade in `src/dist-js/index.mjs`
(a Tauri window plugin JS API), covering the parts the claims concern:

* the geometry value types `LogicalSize`, `PhysicalSize`, `LogicalPosition`,
  `PhysicalPosition` and their `toLogical` conversion (JS numbers are modelled
  as `Rat`; the claims are stated with the same division the code performs);
* the per-instance local event machinery of `Window`: the `listeners` table
  (`Object.create(null)` mapping event name to an array of handler
  references), `_handleTauriEvent`, the local branches of `listen`, `once`
  and `emit`, and the unlisten closures those return;
* the `setSize` tag validation;
* the `CloseRequestedEvent` class and the `onCloseRequested` delivery wrapper;
* the constructor's creation-settlement chain
  `.then(() => this.emit("tauri://created")).catch(e => this.emit("tauri://error", e))`.

Handlers are identified by `Nat` (JS compares handler references with strict
equality in `indexOf`); a handler's observable behaviour during a synchronous
local dispatch is given by a `BehMap` assigning each handler id one of:
return normally, throw, or run a captured unlisten closure.  The dispatch
interpreter models the `for (const handler of this.listeners[event] || [])`
loop of `emit`: a JS array iterator holds an index into the *live* array, so
the interpreter re-reads the handler list from the table at every step, which
is exactly the effect of the in-place `splice` mutations that the modelled
handler behaviours can perform (none of them replaces the array object).
-/

namespace TauriWindow

/-- `class LogicalSize { constructor(width, height) { this.type = "Logical"; ... } }`.
The `type` tag is carried by the Lean type itself. -/
structure LogicalSize where
  width : Rat
  height : Rat
deriving Repr, DecidableEq

/-- `class PhysicalSize { constructor(width, height) { this.type = "Physical"; ... } }`. -/
structure PhysicalSize where
  width : Rat
  height : Rat
deriving Repr, DecidableEq

/-- `PhysicalSize.toLogical(scaleFactor) = new LogicalSize(this.width / scaleFactor, this.height / scaleFactor)`. -/
def PhysicalSize.toLogical (s : PhysicalSize) (scaleFactor : Rat) : LogicalSize :=
  { width := s.width / scaleFactor, height := s.height / scaleFactor }

/-- `class LogicalPosition { constructor(x, y) { this.type = "Logical"; ... } }`. -/
structure LogicalPosition where
  x : Rat
  y : Rat
deriving Repr, DecidableEq

/-- `class PhysicalPosition { constructor(x, y) { this.type = "Physical"; ... } }`. -/
structure PhysicalPosition where
  x : Rat
  y : Rat
deriving Repr, DecidableEq

/-- `PhysicalPosition.toLogical(scaleFactor) = new LogicalPosition(this.x / scaleFactor, this.y / scaleFactor)`. -/
def PhysicalPosition.toLogical (p : PhysicalPosition) (scaleFactor : Rat) : LogicalPosition :=
  { x := p.x / scaleFactor, y := p.y / scaleFactor }

/-- The raw argument `setSize` receives: in JS any object with a `type` tag and
numeric `width`/`height` fields can be passed, so the tag is an arbitrary string. -/
structure SizeValue where
  type : String
  width : Rat
  height : Rat
deriving Repr, DecidableEq

/-- The request `window.__TAURI_INVOKE__("plugin:window|set_size", { label, value: { type, data: { width, height } } })`
would send to the host. -/
structure InvokeRequest where
  cmd : String
  label : String
  valueType : String
  width : Rat
  height : Rat
deriving Repr, DecidableEq

/-- The message of the `Error` thrown by `setSize` on a bad tag. -/
def sizeErrorMessage : String :=
  "the `size` argument must be either a LogicalSize or a PhysicalSize instance"

/-- `Window.setSize(size)`: `if (!size || (size.type !== "Logical" && size.type !== "Physical")) throw ...`,
otherwise a single `plugin:window|set_size` invocation.  `Except.error` models the
synchronous throw, on which no request reaches the host; `none` models a nullish
`size` argument. -/
def setSize (label : String) (size : Option SizeValue) : Except String InvokeRequest :=
  match size with
  | none => Except.error sizeErrorMessage
  | some s =>
    if s.type ≠ "Logical" ∧ s.type ≠ "Physical" then
      Except.error sizeErrorMessage
    else
      Except.ok { cmd := "plugin:window|set_size", label := label, valueType := s.type,
                  width := s.width, height := s.height }

/-- A handler reference.  JS `indexOf` compares function references with strict
equality, so an opaque id models a handler's identity. -/
abbrev Handler := Nat

/-- One `Window` instance's `this.listeners` object: event name to ordered
array of handlers (`Object.create(null)`, so initially no keys). -/
abbrev Table := List (String × List Handler)

/-- `const localTauriEvents = ["tauri://created", "tauri://error"]`. -/
def localTauriEvents : List String := ["tauri://created", "tauri://error"]

/-- `this.listeners[event]`: `none` when the key is absent (JS `undefined`). -/
def lookupListeners (t : Table) (e : String) : Option (List Handler) :=
  (t.find? (fun p => p.fst == e)).map Prod.snd

/-- Overwrite the array stored under an existing key (the in-place mutations
`push`/`splice` on `this.listeners[event]`). -/
def setListeners (t : Table) (e : String) (hs : List Handler) : Table :=
  t.map (fun p => if p.fst == e then (e, hs) else p)

/-- `Window._handleTauriEvent(event, handler)`: for a local event, create the
key with `[handler]` or `push` onto the existing array, returning `true`;
for any other event return `false` and touch nothing. -/
def handleTauriEvent (t : Table) (e : String) (h : Handler) : Table × Bool :=
  if localTauriEvents.contains e then
    match lookupListeners t e with
    | none => (t ++ [(e, [h])], true)
    | some hs => (setListeners t e (hs ++ [h]), true)
  else (t, false)

/-- The local branch of `Window.listen`: registration effect of
`this._handleTauriEvent(event, handler)` (the returned unlisten closure is
`unlistenLocal · event handler`). -/
def listenLocal (t : Table) (e : String) (h : Handler) : Table :=
  (handleTauriEvent t e h).fst

/-- The local branch of `Window.once`: the source calls the very same
`this._handleTauriEvent(event, handler)` with the raw handler — no one-shot
wrapping and no auto-removal — and returns the same kind of unlisten closure. -/
def onceLocal (t : Table) (e : String) (h : Handler) : Table :=
  (handleTauriEvent t e h).fst

/-- JS `Array.prototype.indexOf`: first index of the handler, `-1` if absent. -/
def jsIndexOf (l : List Handler) (h : Handler) : Int :=
  match l.findIdx? (fun x => x == h) with
  | some i => (i : Int)
  | none => -1

/-- JS `Array.prototype.splice(start, 1)`: a negative `start` counts from the
end and clamps at `0`; at most one element, the one at the actual start
index, is removed. -/
def jsSpliceDeleteOne (l : List Handler) (start : Int) : List Handler :=
  let s : Nat := if start < 0 then (start + (l.length : Int)).toNat else min start.toNat l.length
  l.take s ++ l.drop (s + 1)

/-- The unlisten closure returned by the local branch of `listen`/`once`:
`const listeners = this.listeners[event]; listeners.splice(listeners.indexOf(handler), 1)`.
`none` models the `TypeError` JS would raise were the key absent (unreachable
for closures minted by `listen`/`once`, which create the key first). -/
def unlistenLocal (t : Table) (e : String) (h : Handler) : Option Table :=
  match lookupListeners t e with
  | none => none
  | some hs => some (setListeners t e (jsSpliceDeleteOne hs (jsIndexOf hs h)))

/-- The envelope `emit` synthesizes for each local handler:
`{ event, id: -1, windowLabel: this.label, payload }`. -/
structure Envelope where
  event : String
  id : Int
  windowLabel : String
  payload : Option String
deriving Repr, DecidableEq

/-- Observable behaviour of a handler when invoked during a synchronous local
dispatch: return normally, throw an error, or call a captured unlisten
closure for `(event, handler)` and then return. -/
inductive HBeh where
  | ok : HBeh
  | throwErr : String → HBeh
  | unlisten : String → Handler → HBeh
deriving Repr, DecidableEq

/-- Assignment of behaviours to handler ids. -/
abbrev BehMap := Handler → HBeh

/-- Outcome of one local `emit` dispatch: the listener table after the pass,
the invocations performed in order (handler paired with the envelope it
received), and `some msg` when a handler threw, aborting the pass (the
rejection the caller of `emit` observes). -/
structure DispatchResult where
  table : Table
  trace : List (Handler × Envelope)
  err : Option String
deriving Repr, DecidableEq

/-- `{ event, id: -1, windowLabel: label, payload }`. -/
def mkEnvelope (e label : String) (payload : Option String) : Envelope :=
  { event := e, id := -1, windowLabel := label, payload := payload }

/-- The `for (const handler of this.listeners[event] || []) handler(...)` loop
of `Window.emit` on a local event.  A JS array iterator keeps a cursor `i`
into the live array, so each step re-reads the current array from the table;
the loop ends when the cursor reaches the current length.  `fuel` only bounds
the recursion; the cursor strictly increases while the live array never grows
under the modelled behaviours, so `initial length + 1` fuel is never
exhausted. -/
def dispatchFrom (beh : BehMap) (label e : String) (payload : Option String) :
    Nat → Nat → Table → List (Handler × Envelope) → DispatchResult
  | 0, _, t, acc => { table := t, trace := acc, err := none }
  | fuel + 1, i, t, acc =>
    match ((lookupListeners t e).getD [])[i]? with
    | none => { table := t, trace := acc, err := none }
    | some h =>
      let env := mkEnvelope e label payload
      match beh h with
      | HBeh.ok => dispatchFrom beh label e payload fuel (i + 1) t (acc ++ [(h, env)])
      | HBeh.throwErr msg => { table := t, trace := acc ++ [(h, env)], err := some msg }
      | HBeh.unlisten e2 h2 =>
        match unlistenLocal t e2 h2 with
        | some t2 => dispatchFrom beh label e payload fuel (i + 1) t2 (acc ++ [(h, env)])
        | none => { table := t, trace := acc ++ [(h, env)], err := some "TypeError" }

/-- The local branch of `Window.emit(event, payload)`. -/
def emitLocal (beh : BehMap) (label e : String) (payload : Option String) (t : Table) :
    DispatchResult :=
  dispatchFrom beh label e payload (((lookupListeners t e).getD []).length + 1) 0 t []

/-- `Window.emit`: `if (localTauriEvents.includes(event))` run the synchronous
local dispatch, else (`none`) delegate to the remote event subsystem scoped to
this label. -/
def emit (beh : BehMap) (label e : String) (payload : Option String) (t : Table) :
    Option DispatchResult :=
  if localTauriEvents.contains e then some (emitLocal beh label e payload t) else none

/-- Settlement of the constructor's creation command:
`window.__TAURI_INVOKE__("plugin:window|create", ...)
   .then(async () => this.emit("tauri://created"))
   .catch(async (e) => this.emit("tauri://error", e))`.
Given the listener table at settlement time and the command's outcome, returns
the table afterwards and, in order, each local event that fired with the
invocations its dispatch performed.  When the command resolves and a
"tauri://created" handler throws, the async arrow in `.then` rejects and the
`.catch` runs, emitting "tauri://error" with the thrown error; a throw from
the error dispatch itself only yields an unhandled rejection, firing nothing
further. -/
def constructorSettle (beh : BehMap) (label : String) (t : Table)
    (result : Except String Unit) :
    Table × List (String × List (Handler × Envelope)) :=
  match result with
  | Except.ok _ =>
    let r := emitLocal beh label "tauri://created" none t
    match r.err with
    | none => (r.table, [("tauri://created", r.trace)])
    | some msg =>
      let r2 := emitLocal beh label "tauri://error" (some msg) r.table
      (r2.table, [("tauri://created", r.trace), ("tauri://error", r2.trace)])
  | Except.error msg =>
    let r := emitLocal beh label "tauri://error" (some msg) t
    (r.table, [("tauri://error", r.trace)])

/-- The names of the local bootstrap events that fired during settlement. -/
def firedEvents (beh : BehMap) (label : String) (t : Table)
    (result : Except String Unit) : List String :=
  (constructorSettle beh label t result).snd.map Prod.fst

/-- `class CloseRequestedEvent`: copies `event`, `windowLabel`, `id` from the
raw envelope and initialises `this._preventDefault = false`
(`preventDefaultFlag` here). -/
structure CloseRequestedEvent where
  event : String
  windowLabel : String
  id : Int
  preventDefaultFlag : Bool
deriving Repr, DecidableEq

/-- The `CloseRequestedEvent` constructor. -/
def CloseRequestedEvent.ofEnvelope (env : Envelope) : CloseRequestedEvent :=
  { event := env.event, windowLabel := env.windowLabel, id := env.id,
    preventDefaultFlag := false }

/-- `preventDefault() { this._preventDefault = true; }` -/
def CloseRequestedEvent.preventDefault (evt : CloseRequestedEvent) : CloseRequestedEvent :=
  { evt with preventDefaultFlag := true }

/-- `isPreventDefault() { return this._preventDefault; }` -/
def CloseRequestedEvent.isPreventDefault (evt : CloseRequestedEvent) : Bool :=
  evt.preventDefaultFlag

/-- What a client close-handler can do to the event object it is given: call
`preventDefault()` on it, or anything else (which cannot touch the flag — the
class exposes no way to reset it). -/
inductive CloseHandlerAct where
  | preventDefault : CloseHandlerAct
  | other : CloseHandlerAct
deriving Repr, DecidableEq

/-- Run the handler's actions on the event object, in order, up to the point
the handler's outcome settles. -/
def runCloseHandler : List CloseHandlerAct → CloseRequestedEvent → CloseRequestedEvent
  | [], evt => evt
  | CloseHandlerAct.preventDefault :: rest, evt => runCloseHandler rest evt.preventDefault
  | CloseHandlerAct.other :: rest, evt => runCloseHandler rest evt

/-- A `plugin:window|close` invocation for a label. -/
structure CloseCommand where
  cmd : String
  label : String
deriving Repr, DecidableEq

/-- `Window.close()` issues `window.__TAURI_INVOKE__("plugin:window|close", { label })`. -/
def closeInvoke (label : String) : CloseCommand :=
  { cmd := "plugin:window|close", label := label }

/-- One delivery through the wrapper `onCloseRequested` registers:
`const evt = new CloseRequestedEvent(event);
 void Promise.resolve(handler(evt)).then(() => { if (!evt.isPreventDefault()) return this.close(); })`.
Returns the list of close commands the delivery invokes after the handler's
outcome is awaited. -/
def onCloseRequestedDelivery (label : String) (acts : List CloseHandlerAct)
    (env : Envelope) : List CloseCommand :=
  let evt := CloseRequestedEvent.ofEnvelope env
  let evt2 := runCloseHandler acts evt
  if evt2.isPreventDefault then [] else [closeInvoke label]

/-- The instances in existence: instance id = index, each owning its private
`listeners` table. -/
abbrev World := List Table

/-- `this.listeners = Object.create(null)` in the `Window` constructor: every
construction allocates a fresh, empty, per-instance table.  Returns the world
and the new instance's id. -/
def constructWindow (w : World) : World × Nat := (w ++ [[]], w.length)

/-- An operation on one instance's local event machinery: registering via the
local branch of `listen`/`once`, running an unlisten closure, or a local
`emit` dispatch. -/
inductive LocalOp where
  | register : String → Handler → LocalOp
  | unregister : String → Handler → LocalOp
  | emitOp : String → Option String → LocalOp
deriving Repr, DecidableEq

/-- Effect of a `LocalOp` on one instance's table. -/
def applyOp (beh : BehMap) (label : String) : LocalOp → Table → Table
  | LocalOp.register e h, t => (handleTauriEvent t e h).fst
  | LocalOp.unregister e h, t => (unlistenLocal t e h).getD t
  | LocalOp.emitOp e p, t => (emitLocal beh label e p t).table

/-- Run a `LocalOp` against the instance with id `i` (a no-op on an id that
was never allocated). -/
def applyOpAt (beh : BehMap) (label : String) (i : Nat) (op : LocalOp) (w : World) : World :=
  match w[i]? with
  | none => w
  | some t => w.set i (applyOp beh label op t)

/-- All handlers return normally. -/
def behOkAll : BehMap := fun _ => HBeh.ok

/-- Handler 1 runs, during dispatch, the unlisten closure for its own
registration on "tauri://created"; every other handler returns normally. -/
def behSelfRemove : BehMap :=
  fun h => if h == 1 then HBeh.unlisten "tauri://created" 1 else HBeh.ok

/-- A table with handlers 1 and 2 registered, in that order, for "tauri://created". -/
def tableTwo : Table := [("tauri://created", [1, 2])]

/-- Handler 1 throws; every other handler returns normally. -/
def behThrower : BehMap :=
  fun h => if h == 1 then HBeh.throwErr "boom" else HBeh.ok

/-- Handler 1 registered for "tauri://created", handler 2 for "tauri://error". -/
def tableBoot : Table := [("tauri://created", [1]), ("tauri://error", [2])]

/-- Handlers 2, 1, 3 registered in that order for "tauri://created". -/
def tableThree : Table := [("tauri://created", [2, 1, 3])]

/-- A raw close-requested envelope as delivered by the remote channel. -/
def closeEnv : Envelope :=
  { event := "tauri://close-requested", id := 5, windowLabel := "main", payload := none }

/-- Claim C8: for all scale factors s > 0 and physical values with components
(x, y), `toLogical` applied with scale factor s yields the logical value with
components (x / s, y / s), for positions and for sizes alike. -/
theorem toLogical_divides (x y s : Rat) (hs : 0 < s) :
    (PhysicalPosition.mk x y).toLogical s = LogicalPosition.mk (x / s) (y / s) ∧
    (PhysicalSize.mk x y).toLogical s = LogicalSize.mk (x / s) (y / s) :=
  ⟨rfl, rfl⟩

/-- Witness for `toLogical_divides` at x = 3, y = 4, s = 2. -/
theorem toLogical_divides_witness :
    (PhysicalPosition.mk 3 4).toLogical 2 = LogicalPosition.mk (3 / 2) (4 / 2) ∧
    (PhysicalSize.mk 3 4).toLogical 2 = LogicalSize.mk (3 / 2) (4 / 2) :=
  toLogical_divides 3 4 2 (by norm_num)

/-- Claim C6: for every size argument whose tag is neither "Logical" nor
"Physical", `setSize` fails synchronously with the invalid-argument error, so
no `plugin:window|set_size` request is produced for the host. -/
theorem setSize_invalid_tag (label : String) (s : SizeValue)
    (h1 : s.type ≠ "Logical") (h2 : s.type ≠ "Physical") :
    setSize label (some s) = Except.error sizeErrorMessage := by
  simp [setSize, h1, h2]

/-- Witness for `setSize_invalid_tag` at the tag "Foo". -/
theorem setSize_invalid_tag_witness :
    setSize "main" (some { type := "Foo", width := 1, height := 2 }) =
      Except.error sizeErrorMessage :=
  setSize_invalid_tag "main" { type := "Foo", width := 1, height := 2 }
    (by decide) (by decide)

/-- Claim C1 (code behaviour at the failing input): the local branch of `once`
registers the raw handler through `_handleTauriEvent` exactly like `listen`,
with no one-shot wrapping and no auto-removal, so after `once("tauri://created", 7)`
two local emits of "tauri://created" invoke handler 7 twice and leave it
registered — contradicting both the claim and the method's own one-off
documentation. -/
theorem once_local_fires_twice :
    (((emitLocal behOkAll "main" "tauri://created" none
          (onceLocal [] "tauri://created" 7)).trace ++
      (emitLocal behOkAll "main" "tauri://created" none
          (emitLocal behOkAll "main" "tauri://created" none
            (onceLocal [] "tauri://created" 7)).table).trace).map Prod.fst = [7, 7]) ∧
    (lookupListeners
        (emitLocal behOkAll "main" "tauri://created" none
          (emitLocal behOkAll "main" "tauri://created" none
            (onceLocal [] "tauri://created" 7)).table).table
        "tauri://created").getD [] = [7] := by
  decide

/-- Claim C2 (code behaviour at the failing input): with handlers 1 then 2
registered for "tauri://created", the unlisten closure minted for handler 1
removes exactly handler 1 on its first call; the second call finds
`indexOf(1) = -1` and `splice(-1, 1)` deletes the *last* element, removing the
unrelated handler 2 (no error is raised). -/
theorem unlisten_second_call_removes_other :
    unlistenLocal (listenLocal (listenLocal [] "tauri://created" 1) "tauri://created" 2)
        "tauri://created" 1 = some [("tauri://created", [2])] ∧
    unlistenLocal [("tauri://created", [2])] "tauri://created" 1 =
      some [("tauri://created", [])] := by
  decide

/-- Counterexample to claim C3 as stated: with handlers 1 and 2 registered for
"tauri://created" at the start of the dispatch, a single emit during which
handler 1 removes its own registration invokes only handler 1 — handler 2,
though registered at dispatch start, is skipped, because the loop iterates
the live array, not a snapshot: after the in-place removal handler 2 shifts
to index 0 while the iterator's cursor has moved past it. -/
theorem emit_live_iteration_counterexample :
    (lookupListeners tableTwo "tauri://created").getD [] = [1, 2] ∧
    (emitLocal behSelfRemove "main" "tauri://created" none tableTwo).trace.map Prod.fst
      ≠ [1, 2] ∧
    (emitLocal behSelfRemove "main" "tauri://created" none tableTwo).trace.map Prod.fst
      = [1] := by
  decide

/-- Counterexample to claim C5 as stated: when the creation command resolves
successfully but the handler registered for "tauri://created" throws, the
async arrow in `.then` rejects and the `.catch` fires "tauri://error" as
well — the two bootstrap events are not mutually exclusive. -/
theorem created_error_both_fire_counterexample :
    firedEvents behThrower "w1" tableBoot (Except.ok ()) =
      ["tauri://created", "tauri://error"] := by
  decide

/-- Helper: one unfolding of the dispatch loop. -/
theorem dispatchFrom_succ (beh : BehMap) (label e : String) (payload : Option String)
    (fuel i : Nat) (t : Table) (acc : List (Handler × Envelope)) :
    dispatchFrom beh label e payload (fuel + 1) i t acc =
      match ((lookupListeners t e).getD [])[i]? with
      | none => { table := t, trace := acc, err := none }
      | some h =>
        match beh h with
        | HBeh.ok =>
            dispatchFrom beh label e payload fuel (i + 1) t
              (acc ++ [(h, mkEnvelope e label payload)])
        | HBeh.throwErr msg =>
            { table := t, trace := acc ++ [(h, mkEnvelope e label payload)],
              err := some msg }
        | HBeh.unlisten e2 h2 =>
          match unlistenLocal t e2 h2 with
          | some t2 =>
              dispatchFrom beh label e payload fuel (i + 1) t2
                (acc ++ [(h, mkEnvelope e label payload)])
          | none =>
              { table := t, trace := acc ++ [(h, mkEnvelope e label payload)],
                err := some "TypeError" } := rfl

/-- Helper: the loop stops when the cursor has reached the live array's length. -/
theorem dispatchFrom_stop {beh : BehMap} {label e : String} {payload : Option String}
    {fuel i : Nat} {t : Table} {acc : List (Handler × Envelope)}
    (h : ((lookupListeners t e).getD [])[i]? = none) :
    dispatchFrom beh label e payload (fuel + 1) i t acc =
      { table := t, trace := acc, err := none } := by
  rw [dispatchFrom_succ, h]

/-- Helper: a step on a handler that returns normally records the invocation
and advances the cursor, leaving the table alone. -/
theorem dispatchFrom_step_ok {beh : BehMap} {label e : String} {payload : Option String}
    {fuel i : Nat} {t : Table} {acc : List (Handler × Envelope)} {hd : Handler}
    (h : ((lookupListeners t e).getD [])[i]? = some hd) (hb : beh hd = HBeh.ok) :
    dispatchFrom beh label e payload (fuel + 1) i t acc =
      dispatchFrom beh label e payload fuel (i + 1) t
        (acc ++ [(hd, mkEnvelope e label payload)]) := by
  rw [dispatchFrom_succ, h]
  simp only [hb]

/-- Helper: a step on a handler that throws records the invocation and aborts
the pass with the thrown error. -/
theorem dispatchFrom_step_throw {beh : BehMap} {label e : String} {payload : Option String}
    {fuel i : Nat} {t : Table} {acc : List (Handler × Envelope)} {hd : Handler} {msg : String}
    (h : ((lookupListeners t e).getD [])[i]? = some hd) (hb : beh hd = HBeh.throwErr msg) :
    dispatchFrom beh label e payload (fuel + 1) i t acc =
      { table := t, trace := acc ++ [(hd, mkEnvelope e label payload)],
        err := some msg } := by
  rw [dispatchFrom_succ, h]
  simp only [hb]

/-- Helper: a dispatch pass over handlers that all return normally invokes, in
order, exactly the suffix of the registered list from the cursor on, and
changes neither the table nor anything else. -/
theorem dispatchFrom_all_ok (beh : BehMap) (label e : String) (payload : Option String)
    (l : List Handler) (t : Table) (ht : (lookupListeners t e).getD [] = l)
    (hall : ∀ h ∈ l, beh h = HBeh.ok) :
    ∀ fuel i acc, l.length ≤ fuel + i →
      dispatchFrom beh label e payload fuel i t acc =
        { table := t,
          trace := acc ++ (l.drop i).map (fun h => (h, mkEnvelope e label payload)),
          err := none } := by
  intro fuel
  induction fuel with
  | zero =>
    intro i acc hle
    have hdrop : l.drop i = [] := List.drop_eq_nil_of_le (by omega)
    simp [dispatchFrom, hdrop]
  | succ fuel ih =>
    intro i acc hle
    by_cases hi : i < l.length
    · have hget : ((lookupListeners t e).getD [])[i]? = some l[i] := by
        rw [ht]; exact List.getElem?_eq_getElem hi
      rw [dispatchFrom_step_ok hget (hall _ (List.getElem_mem hi))]
      rw [ih (i + 1) (acc ++ [(l[i], mkEnvelope e label payload)]) (by omega)]
      have hdropi : l.drop i = l[i] :: l.drop (i + 1) := List.drop_eq_getElem_cons hi
      rw [hdropi]
      simp only [List.map_cons, List.append_assoc, List.singleton_append]
    · have hget : ((lookupListeners t e).getD [])[i]? = none := by
        rw [ht]; exact List.getElem?_eq_none (by omega)
      have hdrop : l.drop i = [] := List.drop_eq_nil_of_le (by omega)
      rw [dispatchFrom_stop hget]
      simp [hdrop]

/-- Helper: when the registered list is `pre ++ b :: post`, every handler of
`pre` returns normally and `b` throws, the pass invokes `pre` in order, then
`b`, then aborts with `b`'s error, never reaching `post`; the table is
untouched. -/
theorem dispatchFrom_throws (beh : BehMap) (label e : String) (payload : Option String)
    (pre post : List Handler) (b : Handler) (msg : String) (t : Table)
    (ht : (lookupListeners t e).getD [] = pre ++ b :: post)
    (hpre : ∀ h ∈ pre, beh h = HBeh.ok) (hb : beh b = HBeh.throwErr msg) :
    ∀ fuel i acc, i ≤ pre.length → pre.length < fuel + i →
      dispatchFrom beh label e payload fuel i t acc =
        { table := t,
          trace := acc ++ (pre.drop i).map (fun h => (h, mkEnvelope e label payload))
                   ++ [(b, mkEnvelope e label payload)],
          err := some msg } := by
  intro fuel
  induction fuel with
  | zero =>
    intro i acc hile hlt
    omega
  | succ fuel ih =>
    intro i acc hile hlt
    by_cases hi : i < pre.length
    · have hlen : i < (pre ++ b :: post).length := by
        simp only [List.length_append, List.length_cons]; omega
      have hget : ((lookupListeners t e).getD [])[i]? = some pre[i] := by
        rw [ht, List.getElem?_eq_getElem hlen, List.getElem_append_left hi]
      rw [dispatchFrom_step_ok hget (hpre _ (List.getElem_mem hi))]
      rw [ih (i + 1) (acc ++ [(pre[i], mkEnvelope e label payload)]) (by omega) (by omega)]
      have hdropi : pre.drop i = pre[i] :: pre.drop (i + 1) := List.drop_eq_getElem_cons hi
      rw [hdropi]
      simp only [List.map_cons, List.append_assoc, List.singleton_append]
    · have hieq : i = pre.length := by omega
      have hlen : i < (pre ++ b :: post).length := by
        simp only [List.length_append, List.length_cons]; omega
      have hget : ((lookupListeners t e).getD [])[i]? = some b := by
        rw [ht, List.getElem?_eq_getElem hlen,
            List.getElem_append_right (by omega : pre.length ≤ i)]
        simp [hieq]
      rw [dispatchFrom_step_throw hget hb]
      have hdrop : pre.drop i = [] := List.drop_eq_nil_of_le (by omega)
      simp [hdrop]

/-- Claim C3 (amended): on a local event, a single `emit` synchronously
invokes, in registration order, exactly the handlers registered for the event
at the start of the dispatch, provided no handler mutates that handler list
during the pass (each receiving the synthesized envelope), and it resolves
successfully leaving the listener table unchanged; because the loop iterates
the live array rather than a snapshot, a handler that unregisters an entry
mid-pass can perturb which handlers the same pass invokes
(see `emit_live_iteration_counterexample`). -/
theorem emit_all_ok_in_order (beh : BehMap) (label e : String) (payload : Option String)
    (l : List Handler) (t : Table)
    (hloc : e ∈ localTauriEvents)
    (ht : (lookupListeners t e).getD [] = l)
    (hall : ∀ h ∈ l, beh h = HBeh.ok) :
    emit beh label e payload t =
      some { table := t,
             trace := l.map (fun h => (h, mkEnvelope e label payload)),
             err := none } := by
  have hc : localTauriEvents.contains e = true := List.elem_eq_true_of_mem hloc
  rw [emit, if_pos hc, emitLocal, ht]
  rw [dispatchFrom_all_ok beh label e payload l t ht hall (l.length + 1) 0 [] (by omega)]
  simp

/-- Witness for `emit_all_ok_in_order`: handlers 1 then 2 registered for
"tauri://created"; one emit invokes 1 then 2, in that order. -/
theorem emit_all_ok_in_order_witness :
    emit behOkAll "main" "tauri://created" none tableTwo =
      some { table := tableTwo,
             trace := [(1, mkEnvelope "tauri://created" "main" none),
                       (2, mkEnvelope "tauri://created" "main" none)],
             err := none } :=
  emit_all_ok_in_order behOkAll "main" "tauri://created" none [1, 2] tableTwo
    (by decide) rfl (by decide)

/-- Claim C7: when a handler throws during a local `emit` dispatch, the
handlers after it in that pass are not invoked and the error propagates to
`emit`'s caller as the rejection `err = some msg` — it is not swallowed. -/
theorem emit_handler_error_aborts (beh : BehMap) (label e : String) (payload : Option String)
    (pre post : List Handler) (b : Handler) (msg : String) (t : Table)
    (hloc : e ∈ localTauriEvents)
    (ht : (lookupListeners t e).getD [] = pre ++ b :: post)
    (hpre : ∀ h ∈ pre, beh h = HBeh.ok) (hb : beh b = HBeh.throwErr msg) :
    emit beh label e payload t =
      some { table := t,
             trace := pre.map (fun h => (h, mkEnvelope e label payload))
                      ++ [(b, mkEnvelope e label payload)],
             err := some msg } := by
  have hc : localTauriEvents.contains e = true := List.elem_eq_true_of_mem hloc
  rw [emit, if_pos hc, emitLocal, ht]
  rw [dispatchFrom_throws beh label e payload pre post b msg t ht hpre hb
        ((pre ++ b :: post).length + 1) 0 [] (by omega)
        (by simp only [List.length_append, List.length_cons]; omega)]
  simp

/-- Witness for `emit_handler_error_aborts`: handlers 2, 1, 3 registered for
"tauri://created" and handler 1 throws "boom": the pass invokes 2 then 1,
never 3, and the error propagates. -/
theorem emit_handler_error_aborts_witness :
    emit behThrower "main" "tauri://created" none tableThree =
      some { table := tableThree,
             trace := [(2, mkEnvelope "tauri://created" "main" none),
                       (1, mkEnvelope "tauri://created" "main" none)],
             err := some "boom" } :=
  emit_handler_error_aborts behThrower "main" "tauri://created" none [2] [3] 1 "boom"
    tableThree (by decide) rfl (by decide) (by decide)

/-- Claim C10: emitting a local event with no handlers registered for it on
this handle resolves successfully, invokes no handler, and leaves the
listener table unchanged. -/
theorem emit_no_handlers (beh : BehMap) (label e : String) (payload : Option String)
    (t : Table) (hloc : e ∈ localTauriEvents)
    (ht : (lookupListeners t e).getD [] = []) :
    emit beh label e payload t = some { table := t, trace := [], err := none } := by
  have hc : localTauriEvents.contains e = true := List.elem_eq_true_of_mem hloc
  rw [emit, if_pos hc, emitLocal, ht]
  rw [dispatchFrom_all_ok beh label e payload [] t ht (by simp)
        (List.length ([] : List Handler) + 1) 0 [] (by omega)]
  simp

/-- Witness for `emit_no_handlers` on a fresh table with no keys at all. -/
theorem emit_no_handlers_witness :
    emit behOkAll "main" "tauri://error" none [] =
      some { table := [], trace := [], err := none } :=
  emit_no_handlers behOkAll "main" "tauri://error" none [] (by decide) rfl

/-- Helper: a handler that never calls `preventDefault` leaves the flag as it
found it — nothing else can touch it. -/
theorem runCloseHandler_flag_of_not_mem :
    ∀ (acts : List CloseHandlerAct) (evt : CloseRequestedEvent),
      CloseHandlerAct.preventDefault ∉ acts →
      (runCloseHandler acts evt).preventDefaultFlag = evt.preventDefaultFlag
  | [], _, _ => rfl
  | CloseHandlerAct.preventDefault :: _, _, h => absurd (List.mem_cons_self _ _) h
  | CloseHandlerAct.other :: rest, evt, h =>
      runCloseHandler_flag_of_not_mem rest evt (fun hm => h (List.mem_cons_of_mem _ hm))

/-- Helper: once set, the flag stays set — the class exposes no reset. -/
theorem runCloseHandler_mono :
    ∀ (acts : List CloseHandlerAct) (evt : CloseRequestedEvent),
      evt.preventDefaultFlag = true →
      (runCloseHandler acts evt).preventDefaultFlag = true
  | [], _, h => h
  | CloseHandlerAct.preventDefault :: rest, evt, _ =>
      runCloseHandler_mono rest evt.preventDefault rfl
  | CloseHandlerAct.other :: rest, evt, h => runCloseHandler_mono rest evt h

/-- Helper: a handler that calls `preventDefault` at any point leaves the
flag set when its outcome settles. -/
theorem runCloseHandler_flag_of_mem :
    ∀ (acts : List CloseHandlerAct) (evt : CloseRequestedEvent),
      CloseHandlerAct.preventDefault ∈ acts →
      (runCloseHandler acts evt).preventDefaultFlag = true
  | [], _, h => absurd h (List.not_mem_nil _)
  | CloseHandlerAct.preventDefault :: rest, evt, _ =>
      runCloseHandler_mono rest evt.preventDefault rfl
  | CloseHandlerAct.other :: rest, evt, h =>
      runCloseHandler_flag_of_mem rest evt (by
        cases List.mem_cons.mp h with
        | inl hh => exact absurd hh (by decide)
        | inr hh => exact hh)

/-- Claim C4: one close-requested delivery awaits the handler's outcome and
then: if the handler never called `preventDefault`, invokes exactly one
"plugin:window|close" command; if it called `preventDefault` before
resolving, invokes zero close commands. -/
theorem onCloseRequested_close_count (label : String) (acts : List CloseHandlerAct)
    (env : Envelope) :
    (CloseHandlerAct.preventDefault ∉ acts →
      onCloseRequestedDelivery label acts env = [closeInvoke label]) ∧
    (CloseHandlerAct.preventDefault ∈ acts →
      onCloseRequestedDelivery label acts env = []) := by
  constructor
  · intro h
    have hf : (runCloseHandler acts (CloseRequestedEvent.ofEnvelope env)).preventDefaultFlag
        = false := by
      rw [runCloseHandler_flag_of_not_mem acts _ h]
      rfl
    simp [onCloseRequestedDelivery, CloseRequestedEvent.isPreventDefault, hf]
  · intro h
    have hf := runCloseHandler_flag_of_mem acts (CloseRequestedEvent.ofEnvelope env) h
    simp [onCloseRequestedDelivery, CloseRequestedEvent.isPreventDefault, hf]

/-- Witness for `onCloseRequested_close_count` on a concrete delivery: a
handler doing unrelated work yields one close command; a handler calling
`preventDefault` yields none. -/
theorem onCloseRequested_close_count_witness :
    onCloseRequestedDelivery "main" [CloseHandlerAct.other] closeEnv =
      [closeInvoke "main"] ∧
    onCloseRequestedDelivery "main"
        [CloseHandlerAct.other, CloseHandlerAct.preventDefault] closeEnv = [] :=
  ⟨(onCloseRequested_close_count "main" [CloseHandlerAct.other] closeEnv).1 (by decide),
   (onCloseRequested_close_count "main"
      [CloseHandlerAct.other, CloseHandlerAct.preventDefault] closeEnv).2 (by decide)⟩

/-- Claim C5 (amended): after the creation command settles — provided every
handler registered for "tauri://created" returns normally — exactly one of
the two bootstrap events fires, and they are mutually exclusive: on success
only "tauri://created" fires, delivering to each of its handlers an envelope
whose `windowLabel` is the handle's label (and leaving the table unchanged);
on rejection only "tauri://error" fires, never "tauri://created".  Without
the proviso the claim fails: a throwing created-handler makes the `.catch`
fire "tauri://error" as well (see `created_error_both_fire_counterexample`). -/
theorem constructor_settle_exclusive (beh : BehMap) (label : String) (t : Table)
    (result : Except String Unit) (l : List Handler)
    (ht : (lookupListeners t "tauri://created").getD [] = l)
    (hall : ∀ h ∈ l, beh h = HBeh.ok) :
    (result = Except.ok () →
      constructorSettle beh label t result =
        (t, [("tauri://created",
              l.map (fun h => (h, mkEnvelope "tauri://created" label none)))])) ∧
    (∀ msg, result = Except.error msg →
      firedEvents beh label t result = ["tauri://error"]) := by
  have hr : emitLocal beh label "tauri://created" none t =
      { table := t,
        trace := l.map (fun h => (h, mkEnvelope "tauri://created" label none)),
        err := none } := by
    rw [emitLocal, ht]
    rw [dispatchFrom_all_ok beh label "tauri://created" none l t ht hall
          (l.length + 1) 0 [] (by omega)]
    simp
  constructor
  · intro hres
    subst hres
    simp [constructorSettle, hr]
  · intro msg hres
    subst hres
    simp [firedEvents, constructorSettle]

/-- Witness for `constructor_settle_exclusive` with handler 1 registered for
"tauri://created" and handler 2 for "tauri://error". -/
theorem constructor_settle_exclusive_witness :
    constructorSettle behOkAll "w1" tableBoot (Except.ok ()) =
      (tableBoot,
       [("tauri://created", [(1, mkEnvelope "tauri://created" "w1" none)])]) ∧
    firedEvents behOkAll "w1" tableBoot (Except.error "host refused") =
      ["tauri://error"] :=
  ⟨(constructor_settle_exclusive behOkAll "w1" tableBoot (Except.ok ()) [1]
      rfl (by decide)).1 rfl,
   (constructor_settle_exclusive behOkAll "w1" tableBoot (Except.error "host refused") [1]
      rfl (by decide)).2 "host refused" rfl⟩

/-- Helper: on an allocated instance id, a local operation replaces just that
instance's table. -/
theorem applyOpAt_set {beh : BehMap} {label : String} {i : Nat} {op : LocalOp}
    {w : World} {t : Table} (h : w[i]? = some t) :
    applyOpAt beh label i op w = w.set i (applyOp beh label op t) := by
  simp only [applyOpAt]
  rw [h]

/-- Claim C9: two `Window` instances constructed one after the other — with
the same label — get distinct instance ids and fresh, empty, private
`listeners` tables (`this.listeners = Object.create(null)` runs per
construction), and any local operation (registering via `listen`/`once`,
running an unlisten closure, or a local `emit` dispatch) applied to one
instance leaves the other instance's table exactly as it was; observations
(`lookupListeners`, the dispatch loop) are by construction functions of the
one instance's own table only. -/
theorem same_label_instances_independent (w : World) (label : String)
    (beh : BehMap) (op : LocalOp) :
    (constructWindow w).snd ≠ (constructWindow (constructWindow w).fst).snd ∧
    ((constructWindow (constructWindow w).fst).fst)[(constructWindow w).snd]? =
      some [] ∧
    ((constructWindow (constructWindow w).fst).fst)[(constructWindow
        (constructWindow w).fst).snd]? = some [] ∧
    (applyOpAt beh label (constructWindow w).snd op
        (constructWindow (constructWindow w).fst).fst)[(constructWindow
        (constructWindow w).fst).snd]? =
      ((constructWindow (constructWindow w).fst).fst)[(constructWindow
        (constructWindow w).fst).snd]? ∧
    (applyOpAt beh label (constructWindow (constructWindow w).fst).snd op
        (constructWindow (constructWindow w).fst).fst)[(constructWindow w).snd]? =
      ((constructWindow (constructWindow w).fst).fst)[(constructWindow w).snd]? := by
  show w.length ≠ (w ++ ([[]] : World)).length ∧
      (w ++ [[]] ++ [[]] : World)[w.length]? = some [] ∧
      (w ++ [[]] ++ [[]] : World)[(w ++ ([[]] : World)).length]? = some [] ∧
      (applyOpAt beh label w.length op
          (w ++ [[]] ++ [[]]))[(w ++ ([[]] : World)).length]? =
        (w ++ [[]] ++ [[]] : World)[(w ++ ([[]] : World)).length]? ∧
      (applyOpAt beh label (w ++ ([[]] : World)).length op
          (w ++ [[]] ++ [[]]))[w.length]? =
        (w ++ [[]] ++ [[]] : World)[w.length]?
  have hne : w.length ≠ (w ++ ([[]] : World)).length := by
    simp only [List.length_append, List.length_singleton]
    omega
  have hi : (w ++ [[]] ++ [[]] : World)[w.length]? = some [] := by
    rw [List.getElem?_append_left (by simp),
        List.getElem?_append_right (le_refl _)]
    simp
  have hj : (w ++ [[]] ++ [[]] : World)[(w ++ ([[]] : World)).length]? = some [] := by
    rw [List.getElem?_append_right (le_refl _)]
    simp
  refine ⟨hne, hi, hj, ?_, ?_⟩
  · rw [applyOpAt_set hi]
    exact List.getElem?_set_ne hne
  · rw [applyOpAt_set hj]
    exact List.getElem?_set_ne (Ne.symm hne)

end TauriWindow
